import Mathlib

/-!
Shallow embedding of the multi-agent supervisor
(skills/agents-init/scripts/supervise_agents.py) together with proofs of the
frozen behavioural claims about it.

The Python source works on strings, dictionaries and deques.  Strings are
embedded through their character lists so that every operation is a plain
structural recursion that the kernel can evaluate; dictionaries keyed by
thread id become association lists; deques become Lean lists used at the
front (popleft) and back (append).  File reads and wall-clock time in the
readiness wait are abstracted as the sequence of values the polling loop
would observe, one entry per read.
-/

/-! ## Python string primitives -/

/-- Character class stripped by the Python str.strip method (ASCII whitespace). -/
def isPyWs (c : Char) : Bool :=
  c == ' ' || c == '\t' || c == '\n' || c == '\r' || c == '\x0b' || c == '\x0c'

/-- Python str.strip on a character list. -/
def pyStripL (cs : List Char) : List Char :=
  ((cs.dropWhile isPyWs).reverse.dropWhile isPyWs).reverse

/-- Python str.strip. -/
def pyStrip (s : String) : String := String.mk (pyStripL s.data)

/-- Python split on the two-character delimiter of directives
    (non-overlapping, leftmost first), on a character list. -/
def splitBarsL : List Char → List (List Char)
  | [] => [[]]
  | '|' :: '|' :: cs => [] :: splitBarsL cs
  | c :: cs =>
    match splitBarsL cs with
    | [] => [[]]
    | g :: gs => (c :: g) :: gs

/-- Python prompt.split on the double-bar delimiter. -/
def splitBars (s : String) : List String := (splitBarsL s.data).map String.mk

/-- Python join with the double-bar delimiter, on character lists. -/
def joinBarsL : List (List Char) → List Char
  | [] => []
  | [g] => g
  | g :: gs => g ++ '|' :: '|' :: joinBarsL gs

/-- Python join with the double-bar delimiter. -/
def joinBars (parts : List String) : String :=
  String.mk (joinBarsL (parts.map String.data))

/-- Python split on a single-character delimiter, on a character list. -/
def splitCharL (sep : Char) : List Char → List (List Char)
  | [] => [[]]
  | c :: cs =>
    match splitCharL sep cs with
    | [] => [[]]
    | g :: gs => if c == sep then [] :: g :: gs else (c :: g) :: gs

/-- Python s.startswith(pre). -/
def pyStartsWith (s pre : String) : Bool := pre.data.isPrefixOf s.data

/-- Python membership test of a single character in a string. -/
def pyContainsChar (s : String) (c : Char) : Bool := s.data.contains c

/-- Drop the first n characters of a string; models token.replace(pre, "", 1)
    when the token is known to start with pre of length n. -/
def pyDropChars (s : String) (n : Nat) : String := String.mk (s.data.drop n)

/-- Python directive.split("|", 1) when a bar is present: the text before the
    first bar and the text after it. -/
def splitFirstBar (s : String) : String × String :=
  (String.mk (s.data.takeWhile (fun c => !(c == '|'))),
   String.mk ((s.data.dropWhile (fun c => !(c == '|'))).drop 1))

/-- Python str.isdigit for ASCII content: nonempty and all digits. -/
def pyIsDigit (s : String) : Bool := !s.data.isEmpty && s.data.all Char.isDigit

/-- Numeric value of a digit string, as built by the Python int constructor. -/
def pyToNat (s : String) : Nat :=
  s.data.foldl (fun n c => n * 10 + (c.toNat - '0'.toNat)) 0

/-! ## Directive parser (extract_directives, lines 196-231) -/

/-- Dependency token list of a directive payload (supervise_agents.py lines
    212-224): the stripped comma-separated pieces that are nonempty after
    stripping. -/
def parseDepsTok (directive : String) : List String :=
  (((splitCharL ',' directive.data).map pyStripL).filter (fun d => !d.isEmpty)).map String.mk

/-- Loop of extract_directives (supervise_agents.py lines 201-227).  It walks the
    parts of the prompt split on the double-bar delimiter; each recognized
    directive token is consumed (a readiness wait overwrites the previous one,
    dependency tokens accumulate), and the first token that is not a recognized
    directive ends the run, returning the untouched remaining parts together
    with the accumulated wait gate and dependency list.  The Python code checks
    the WAIT_FOR_STATUS prefix and then, inside that branch, the presence of a
    bar, falling through to the other prefix tests when the bar is missing;
    those tests are the same ones performed here. -/
def extractLoop (wait : Option (String × String)) (deps : List String) :
    List String → List String × Option (String × String) × List String
  | [] => ([], wait, deps)
  | part :: rest =>
    let token := pyStrip part
    if pyStartsWith token "WAIT_FOR_STATUS:" &&
        pyContainsChar (pyStrip (pyDropChars token ("WAIT_FOR_STATUS:".length))) '|' then
      let directive := pyStrip (pyDropChars token ("WAIT_FOR_STATUS:".length))
      let ps := splitFirstBar directive
      extractLoop (some (pyStrip ps.1, pyStrip ps.2)) deps rest
    else if pyStartsWith token "WAIT_FOR_AGENT_DONE:" then
      extractLoop wait
        (deps ++ parseDepsTok (pyStrip (pyDropChars token ("WAIT_FOR_AGENT_DONE:".length)))) rest
    else if pyStartsWith token "WAIT_FOR_AGENT:" then
      extractLoop wait
        (deps ++ parseDepsTok (pyStrip (pyDropChars token ("WAIT_FOR_AGENT:".length)))) rest
    else if pyStartsWith token "WAIT_FOR_AGENTS:" then
      extractLoop wait
        (deps ++ parseDepsTok (pyStrip (pyDropChars token ("WAIT_FOR_AGENTS:".length)))) rest
    else (part :: rest, wait, deps)

/-- extract_directives (supervise_agents.py lines 196-231): split the prompt on
    the double-bar delimiter, consume the leading directive run, and return the
    remaining parts rejoined with the delimiter and stripped, together with the
    wait gate and the dependency list. -/
def extract_directives (prompt : String) :
    String × Option (String × String) × List String :=
  let r := extractLoop none [] (splitBars prompt)
  (pyStrip (joinBars r.1), r.2.1, r.2.2)

/-- Test used in the claims about extract_directives: whether a part would be
    consumed as a directive by one step of the loop. -/
def isDirectiveToken (part : String) : Bool :=
  let token := pyStrip part
  (pyStartsWith token "WAIT_FOR_STATUS:" &&
     pyContainsChar (pyStrip (pyDropChars token ("WAIT_FOR_STATUS:".length))) '|') ||
  pyStartsWith token "WAIT_FOR_AGENT_DONE:" ||
  pyStartsWith token "WAIT_FOR_AGENT:" ||
  pyStartsWith token "WAIT_FOR_AGENTS:"

/-! ## Text normalization (normalize_summary_text, lines 325-357) -/

/-- Lookahead performed after a single line break (supervise_agents.py lines
    339-351): skip spaces and tabs, then report whether the next character is a
    list marker or an ordered-list marker (a digit followed immediately by a
    period). -/
def listBreakAhead (rest : List Char) : Bool :=
  match rest.dropWhile (fun c => c == ' ' || c == '\t') with
  | [] => false
  | next :: after =>
    if next == '-' || next == '*' || next == '+' || next == '#' then true
    else if next.isDigit then
      match after with
      | '.' :: _ => true
      | _ => false
    else false

/-- Character-list core of normalize_summary_text (supervise_agents.py lines
    325-357): drop carriage returns, collapse a double line break into one
    break, and collapse a single line break into a space unless the lookahead
    finds a list marker. -/
def normalizeChars : List Char → List Char
  | [] => []
  | '\r' :: rest => normalizeChars rest
  | '\n' :: '\n' :: rest => '\n' :: normalizeChars rest
  | '\n' :: rest => (if listBreakAhead rest then '\n' else ' ') :: normalizeChars rest
  | c :: rest => c :: normalizeChars rest

/-- normalize_summary_text (supervise_agents.py lines 325-357). -/
def normalize_summary_text (text : String) : String :=
  String.mk (normalizeChars text.data)

/-- normalize_agent_text (supervise_agents.py lines 366-367) delegates to
    normalize_summary_text. -/
def normalize_agent_text (text : String) : String := normalize_summary_text text

/-! ## Approval decision payloads (get_decision_payload, lines 522-550) -/

/-- JSON value shapes needed by the approval workflow payloads. -/
inductive Json where
  | null
  | str (s : String)
  | obj (fields : List (String × Json))

/-- Python truthiness of the JSON shapes above: None is falsy, a string is
    truthy when nonempty, an object is truthy when it has fields. -/
def Json.truthy : Json → Bool
  | .null => false
  | .str s => !(s == "")
  | .obj fields => !fields.isEmpty

/-- get_decision_payload (supervise_agents.py lines 522-550).  The amendment
    argument is the proposed execpolicy amendment carried on the original
    request, Json.null when the request carried none. -/
def get_decision_payload (method choice : String) (amendment : Json) : Option Json :=
  let is_legacy := method == "applyPatchApproval" || method == "execCommandApproval"
  if choice == "a" then
    some (if is_legacy then Json.obj [("decision", Json.str "approved")]
          else Json.obj [("decision", Json.str "accept")])
  else if choice == "s" then
    some (if is_legacy then Json.obj [("decision", Json.str "approved_for_session")]
          else Json.obj [("decision", Json.str "acceptForSession")])
  else if choice == "p" && amendment.truthy then
    if is_legacy then
      some (Json.obj [("decision",
        Json.obj [("approved_execpolicy_amendment",
          Json.obj [("proposed_execpolicy_amendment", amendment)])])])
    else
      some (Json.obj [("decision",
        Json.obj [("acceptWithExecpolicyAmendment",
          Json.obj [("execpolicyAmendment", amendment)])])])
  else if choice == "d" then
    some (if is_legacy then Json.obj [("decision", Json.str "denied")]
          else Json.obj [("decision", Json.str "decline")])
  else if choice == "c" then
    some (if is_legacy then Json.obj [("decision", Json.str "abort")]
          else Json.obj [("decision", Json.str "cancel")])
  else none

/-! ## Agent records and the scheduler (run_plain / run_curses, lines 1119-1353) -/

/-- Scan for a substring; when found, return the characters after its first
    occurrence.  Models the Python str.find based extraction. -/
def findAfterL (pat : List Char) : List Char → Option (List Char)
  | [] => none
  | c :: cs =>
    if pat.isPrefixOf (c :: cs) then some ((c :: cs).drop pat.length)
    else findAfterL pat cs

/-- parse_agent_name (supervise_agents.py lines 566-577): the stripped text
    between the name marker and the first closing parenthesis after it, or none
    when the marker or the closing parenthesis is missing or the text is empty. -/
def parse_agent_name (prompt : String) : Option String :=
  match findAfterL "(name:".data prompt.data with
  | none => none
  | some after =>
    if after.contains ')' then
      let nm := pyStripL (after.takeWhile (fun c => !(c == ')')))
      if nm.isEmpty then none else some (String.mk nm)
    else none

/-- Fields of the per-agent record that the scheduler reads: ordinal index,
    parsed display name, and the lifecycle flag. -/
structure AgentRec where
  index : Nat
  name : Option String
  done : Bool

/-- Queued-but-not-started agent spec (run_plain lines 1126-1130). -/
structure AgentSpec where
  index : Nat
  prompt : String
  wait : Option (String × String)
  deps : List String

/-- deps_satisfied (supervise_agents.py lines 234-249): every dependency token
    must name a completed agent, by index for digit tokens and by truthy display
    name otherwise. -/
def deps_satisfied (deps : List String) (agents : List AgentRec) : Bool :=
  deps.all fun dep =>
    if pyIsDigit dep then
      agents.any (fun a => a.done && a.index == pyToNat dep)
    else
      agents.any (fun a =>
        a.done && (match a.name with
                   | some n => !(n == "") && n == dep
                   | none => false))

/-- Materialization of the agent record by start_agent (run_plain lines
    1133-1171): a fresh record with the spec index, the name parsed from the
    prompt, and the running lifecycle flag, appended to the registry. -/
def start_agent_rec (agents : List AgentRec) (item : AgentSpec) : List AgentRec :=
  agents ++ [{ index := item.index, name := parse_agent_name item.prompt, done := false }]

/-- Number of agents whose lifecycle flag is not done, as recomputed by the
    scheduler loop condition (run_plain line 1176). -/
def countNondone (agents : List AgentRec) : Nat :=
  agents.countP (fun a => !a.done)

/-- Loop of start_ready_agents (run_plain lines 1173-1188): while specs are
    pending and the count of non-done agents is below the cap, pop the next
    spec; start it when its dependencies are satisfied, otherwise keep it (in
    order) for the next tick.  When the cap is reached the unexamined specs are
    preserved behind the kept ones, exactly as the Python drain loop does. -/
def sraLoop (maxPar : Nat) :
    List AgentSpec → List AgentRec → List AgentSpec → Bool →
    List AgentSpec × List AgentRec × Bool
  | [], agents, remaining, started => (remaining, agents, started)
  | item :: rest, agents, remaining, started =>
    if countNondone agents < maxPar then
      if deps_satisfied item.deps agents then
        sraLoop maxPar rest (start_agent_rec agents item) remaining true
      else
        sraLoop maxPar rest agents (remaining ++ [item]) started
    else (remaining ++ item :: rest, agents, started)

/-- start_ready_agents (run_plain lines 1173-1188): one scheduling pass over the
    pending queue. -/
def start_ready_agents (maxPar : Nat) (pending : List AgentSpec)
    (agents : List AgentRec) : List AgentSpec × List AgentRec × Bool :=
  sraLoop maxPar pending agents [] false

/-- Modelled from the spec (uncapped comparison point for the claim that a cap
    equal to the number of specs never blocks a start): the same scheduling
    pass without the parallelism-cap test. -/
def sraLoopUncapped :
    List AgentSpec → List AgentRec → List AgentSpec → Bool →
    List AgentSpec × List AgentRec × Bool
  | [], agents, remaining, started => (remaining, agents, started)
  | item :: rest, agents, remaining, started =>
    if deps_satisfied item.deps agents then
      sraLoopUncapped rest (start_agent_rec agents item) remaining true
    else
      sraLoopUncapped rest agents (remaining ++ [item]) started

/-- Scheduler-visible state of a run: the pending specs and the agent registry. -/
structure SchedState where
  pending : List AgentSpec
  agents : List AgentRec

/-- Events that change the scheduler-visible state during a run: a scheduler
    tick, a turn completion that leaves the agent done (process_event lines
    1076-1083 with an empty follow-up queue), and a turn completion that
    immediately dequeues a follow-up prompt and re-arms the agent (lines
    1084-1089), leaving the lifecycle flag running. -/
inductive SchedStep where
  | tick
  | complete (idx : Nat)
  | completeRedispatch (idx : Nat)

/-- Transition of the scheduler-visible state under one event. -/
def applySchedStep (maxPar : Nat) (s : SchedState) : SchedStep → SchedState
  | .tick =>
    let r := start_ready_agents maxPar s.pending s.agents
    { pending := r.1, agents := r.2.1 }
  | .complete idx =>
    { s with agents :=
        s.agents.map (fun a => if a.index == idx then { a with done := true } else a) }
  | .completeRedispatch _ => s

/-- Effective parallelism cap (run_plain line 1131 and run_curses line 1282):
    the Python expression args.max_parallel or len(args.agent) falls back to
    the number of agent specs when the option is absent or zero, the two falsy
    values an optional count can take. -/
def effective_max_parallel (max_parallel : Option Nat) (numAgents : Nat) : Nat :=
  match max_parallel with
  | none => numAgents
  | some v => if v == 0 then numAgents else v

/-! ## Approval queues and the operator decision commands
    (handle_user_command, lines 856-935; run_curses request drain, lines 1354-1371) -/

/-- Pending approval entry as built by the run_curses request drain (lines
    1361-1368): originating request id, method, owning thread, and the proposed
    execpolicy amendment carried on the request (Json.null when absent). -/
structure ApprovalEntry where
  req_id : Nat
  method : String
  thread_id : String
  amendment : Json

/-- Observable state touched by the approval commands: the global FIFO, the
    per-thread FIFOs (a dictionary modelled as an association list), the
    responses written back to the server, and the operator-visible output and
    log lines. -/
structure ApprovalState where
  approval_queue : List ApprovalEntry
  byThread : List (String × List ApprovalEntry)
  responses : List (Nat × Json)
  outputs : List String
  logs : List String

/-- Python approvals_by_thread.get(thread_id) or deque(). -/
def lookupThread (m : List (String × List ApprovalEntry)) (tid : String) :
    List ApprovalEntry :=
  match m with
  | [] => []
  | (k, q) :: rest => if k == tid then q else lookupThread rest tid

/-- Python approvals_by_thread[thread_id] = queue (update or insert). -/
def setThread (m : List (String × List ApprovalEntry)) (tid : String)
    (q : List ApprovalEntry) : List (String × List ApprovalEntry) :=
  match m with
  | [] => [(tid, q)]
  | (k, q0) :: rest => if k == tid then (tid, q) :: rest else (k, q0) :: setThread rest tid q

/-- Python list.remove of an aliased entry: request ids are allocated strictly
    increasing, so the first entry carrying the request id is the entry itself. -/
def eraseByReqId (q : List ApprovalEntry) (rid : Nat) : List ApprovalEntry :=
  match q with
  | [] => []
  | e :: rest => if e.req_id == rid then rest else e :: eraseByReqId rest rid

/-- Python membership test entry in approval_queue, under the same aliasing
    reading. -/
def memByReqId (q : List ApprovalEntry) (rid : Nat) : Bool :=
  q.any (fun e => e.req_id == rid)

/-- approve_request (supervise_agents.py lines 664-669) without the write to
    the server: the payload when the choice is valid for the entry. -/
def approve_request_payload (entry : ApprovalEntry) (choice : String) : Option Json :=
  get_decision_payload entry.method choice entry.amendment

/-- Branch of handle_user_command for an agent-addressed decision letter
    (supervise_agents.py lines 919-935), reached when the referenced agent
    resolved to thread tid with ordinal agentIndex and the prompt is one of the
    five choice letters.  The head entry of the per-thread queue is popped, the
    entry is removed from the global queue when present, and only then is the
    decision validated: an invalid decision is reported with the entry already
    gone from both queues and no response written. -/
def agentChoiceCmd (st : ApprovalState) (tid : String) (agentIndex : Nat)
    (choice : String) : ApprovalState :=
  match lookupThread st.byThread tid with
  | [] =>
    { st with outputs := st.outputs ++
        ["No pending approvals for agent " ++ toString agentIndex ++ "."] }
  | entry :: restQ =>
    let st1 := { st with
      byThread := setThread st.byThread tid restQ,
      approval_queue :=
        if memByReqId st.approval_queue entry.req_id then
          eraseByReqId st.approval_queue entry.req_id
        else st.approval_queue }
    match approve_request_payload entry choice with
    | none => { st1 with outputs := st1.outputs ++ ["Invalid approval choice."] }
    | some decision =>
      { st1 with
        responses := st1.responses ++ [(entry.req_id, decision)],
        logs := st1.logs ++ ["approval " ++ toString agentIndex ++ ": " ++ choice] }

/-- Branch of handle_user_command for the approve command without a target
    (supervise_agents.py lines 886-899): the oldest entry is popped from the
    global queue and removed from its per-thread queue, and only then is the
    decision validated. -/
def approveCmdNoTarget (st : ApprovalState) (choice : String) : ApprovalState :=
  match st.approval_queue with
  | [] => { st with outputs := st.outputs ++ ["No pending approvals."] }
  | entry :: restG =>
    let tq := lookupThread st.byThread entry.thread_id
    let st1 := { st with
      approval_queue := restG,
      byThread :=
        if memByReqId tq entry.req_id then
          setThread st.byThread entry.thread_id (eraseByReqId tq entry.req_id)
        else st.byThread }
    match approve_request_payload entry choice with
    | none => { st1 with outputs := st1.outputs ++ ["Invalid approval choice."] }
    | some decision =>
      { st1 with
        responses := st1.responses ++ [(entry.req_id, decision)],
        logs := st1.logs ++ ["approval " ++ entry.thread_id ++ ": " ++ choice] }

/-! ## Follow-up prompt queue (queue_agent_prompt / start_agent_prompt /
    process_event turn completion, lines 633-651 and 1076-1089) -/

/-- Follow-up-queue view of one agent: the lifecycle flag, the queued follow-up
    prompts, and the prompts dispatched through turn/start so far, plus two
    history lists (every prompt ever enqueued, every prompt ever dequeued)
    recording the order in which the queue was used. -/
structure FollowUpAgent where
  done : Bool
  queued : List String
  sent : List String
  enq : List String
  deq : List String

/-- Events that drive the follow-up queue: an operator prompt addressed to the
    agent (handle_user_command lines 950-953) and a turn completion
    (process_event lines 1076-1089). -/
inductive FollowUpEvent where
  | userPrompt (p : String)
  | turnCompleted

/-- Transition of one agent under a follow-up event.  An operator prompt is
    dispatched at once when the agent is done (start_agent_prompt re-arms it to
    running) and queued otherwise; a turn completion marks the agent done and
    then pops and dispatches exactly the head of the queue when one is waiting,
    re-arming the agent. -/
def followUpStep (s : FollowUpAgent) : FollowUpEvent → FollowUpAgent
  | .userPrompt p =>
    if s.done then { s with done := false, sent := s.sent ++ [p] }
    else { s with queued := s.queued ++ [p], enq := s.enq ++ [p] }
  | .turnCompleted =>
    match s.queued with
    | [] => { s with done := true }
    | p :: rest =>
      { s with done := false, queued := rest,
               sent := s.sent ++ [p], deq := s.deq ++ [p] }

/-- Agent as first materialized: running, with an empty follow-up queue. -/
def initFollowUpAgent : FollowUpAgent :=
  { done := false, queued := [], sent := [], enq := [], deq := [] }

/-! ## Review artifact idempotency (process_event exitedReviewMode, lines 1031-1045) -/

/-- State threaded through exited-review-mode handling: the labels remembered
    when review mode was entered, the set of review ids already written, and the
    ids for which a review-output-saved line was recorded, in order. -/
structure ReviewState where
  review_labels : List (String × Json)
  review_written : List String
  saved : List String

/-- Payload of one exited-review-mode completed item: the item id and the review
    output text, the empty string standing for a missing or falsy field. -/
structure ExitReviewEvent where
  id : String
  output : String

/-- Handling of one exited-review-mode item (process_event lines 1031-1045):
    when the output and the id are nonempty and the id has not been written yet,
    pop the remembered label, persist the artifact, mark the id written, and
    record the saved line; otherwise do nothing. -/
def processExitedReview (s : ReviewState) (e : ExitReviewEvent) : ReviewState :=
  if e.output ≠ "" ∧ e.id ≠ "" ∧ e.id ∉ s.review_written then
    { review_labels := s.review_labels.filter (fun kv => !(kv.1 == e.id)),
      review_written := s.review_written ++ [e.id],
      saved := s.saved ++ [e.id] }
  else s

/-- Review state at startup (run_plain lines 1122-1123). -/
def initReviewState : ReviewState :=
  { review_labels := [], review_written := [], saved := [] }

/-! ## Readiness gate (wait_for_status, lines 262-280; start_agent, lines 1133-1149) -/

/-- Actions of a gated start, in order: a read of the first line of the gate
    file (none when the file is missing), a polling sleep, the thread/start
    request, and the initial turn/start request. -/
inductive GateAction where
  | gateRead (r : Option String)
  | sleepPoll
  | threadStart
  | turnStart

/-- Check applied to one read of the gate file (wait_for_status lines 269-271):
    the stripped first line equals the expected status; a missing file never
    matches. -/
def gateCheck (expected : String) : Option String → Bool
  | some line => pyStrip line == expected
  | none => false

/-- Trace of wait_for_status (lines 262-280) over the sequence of values its
    successive reads observe: each failed check is followed by a polling sleep,
    the first successful check returns, and none is returned when the
    observations are exhausted without a success (the deadline path, which
    raises). -/
def waitTrace (expected : String) : List (Option String) → Option (List GateAction)
  | [] => none
  | obs :: rest =>
    if gateCheck expected obs then some [GateAction.gateRead obs]
    else
      match waitTrace expected rest with
      | some tr => some (GateAction.gateRead obs :: GateAction.sleepPoll :: tr)
      | none => none

/-- Action trace of start_agent (run_plain lines 1133-1149) for a spec with the
    given readiness gate: a gated spec first runs wait_for_status to completion
    and only then issues thread/start followed by turn/start. -/
def start_agent_trace (wait : Option (String × String))
    (obs : List (Option String)) : Option (List GateAction) :=
  match wait with
  | none => some [GateAction.threadStart, GateAction.turnStart]
  | some w =>
    match waitTrace w.2 obs with
    | some tr => some (tr ++ [GateAction.threadStart, GateAction.turnStart])
    | none => none

/-! ## Claim theorems -/

/-- C1: for each of the five approval decision choices and each of the two
    method families, get_decision_payload produces exactly the documented wire
    encoding (legacy family: approved, approved_for_session,
    approved_execpolicy_amendment, denied, abort; current family: accept,
    acceptForSession, acceptWithExecpolicyAmendment, decline, cancel), and the
    amendment choice yields a payload only when the original request carried a
    (truthy) amendment, returning none otherwise. -/
theorem C1_decision_payload_encoding :
    ∀ (method : String) (amendment : Json),
      ((method == "applyPatchApproval" || method == "execCommandApproval") = true →
        get_decision_payload method "a" amendment
          = some (Json.obj [("decision", Json.str "approved")])
        ∧ get_decision_payload method "s" amendment
          = some (Json.obj [("decision", Json.str "approved_for_session")])
        ∧ (amendment.truthy = true →
            get_decision_payload method "p" amendment
              = some (Json.obj [("decision",
                  Json.obj [("approved_execpolicy_amendment",
                    Json.obj [("proposed_execpolicy_amendment", amendment)])])]))
        ∧ (amendment.truthy = false →
            get_decision_payload method "p" amendment = none)
        ∧ get_decision_payload method "d" amendment
          = some (Json.obj [("decision", Json.str "denied")])
        ∧ get_decision_payload method "c" amendment
          = some (Json.obj [("decision", Json.str "abort")]))
      ∧ ((method == "applyPatchApproval" || method == "execCommandApproval") = false →
        get_decision_payload method "a" amendment
          = some (Json.obj [("decision", Json.str "accept")])
        ∧ get_decision_payload method "s" amendment
          = some (Json.obj [("decision", Json.str "acceptForSession")])
        ∧ (amendment.truthy = true →
            get_decision_payload method "p" amendment
              = some (Json.obj [("decision",
                  Json.obj [("acceptWithExecpolicyAmendment",
                    Json.obj [("execpolicyAmendment", amendment)])])]))
        ∧ (amendment.truthy = false →
            get_decision_payload method "p" amendment = none)
        ∧ get_decision_payload method "d" amendment
          = some (Json.obj [("decision", Json.str "decline")])
        ∧ get_decision_payload method "c" amendment
          = some (Json.obj [("decision", Json.str "cancel")])) := by
  intro method amendment
  constructor
  · intro hleg
    refine ⟨?_, ?_, ?_, ?_, ?_, ?_⟩ <;>
      first
      | (intro ht; simp [get_decision_payload, hleg, ht])
      | simp [get_decision_payload, hleg]
  · intro hleg
    refine ⟨?_, ?_, ?_, ?_, ?_, ?_⟩ <;>
      first
      | (intro ht; simp [get_decision_payload, hleg, ht])
      | simp [get_decision_payload, hleg]

/-- Closed witness for C1 at one legacy method and one current method. -/
theorem C1_decision_payload_encoding_witness :
    get_decision_payload "execCommandApproval" "a" (Json.str "x")
      = some (Json.obj [("decision", Json.str "approved")])
    ∧ get_decision_payload "item/commandExecution/requestApproval" "p" Json.null
      = none :=
  ⟨((C1_decision_payload_encoding "execCommandApproval" (Json.str "x")).1 rfl).1,
   (((C1_decision_payload_encoding "item/commandExecution/requestApproval"
      Json.null).2 rfl).2.2.2.1) rfl⟩

/-- Helper: a list whose first characters disagree with q cannot be a prefix of
    q followed by anything. -/
theorem isPrefixOf_append_false (p q t : List Char)
    (h : (p.take q.length).isPrefixOf q = false) :
    p.isPrefixOf (q ++ t) = false := by
  by_contra hc
  rw [Bool.not_eq_false, List.isPrefixOf_iff_prefix] at hc
  have h2 := hc.take q.length
  rw [List.take_left] at h2
  rw [← List.isPrefixOf_iff_prefix] at h2
  simp [h2] at h

/-- Helper: a token starting with the status-wait directive marker starts with
    none of the three dependency directive markers. -/
theorem wfsToken_not_other (tok : List Char)
    (h : ("WAIT_FOR_STATUS:".data).isPrefixOf tok = true) :
    ("WAIT_FOR_AGENT_DONE:".data).isPrefixOf tok = false
    ∧ ("WAIT_FOR_AGENT:".data).isPrefixOf tok = false
    ∧ ("WAIT_FOR_AGENTS:".data).isPrefixOf tok = false := by
  rw [ List.isPrefixOf_iff_prefix] at h
  obtain ⟨t, rfl⟩ := h
  exact ⟨isPrefixOf_append_false _ _ _ (by decide),
         isPrefixOf_append_false _ _ _ (by decide),
         isPrefixOf_append_false _ _ _ (by decide)⟩

/-- Helper: the directive loop stops at the first part that is not a recognized
    directive token, returning the remaining parts untouched. -/
theorem extractLoop_stop (w : Option (String × String)) (d : List String)
    (part : String) (rest : List String)
    (h : isDirectiveToken part = false) :
    extractLoop w d (part :: rest) = (part :: rest, w, d) := by
  simp only [isDirectiveToken, Bool.or_eq_false_iff] at h
  obtain ⟨⟨⟨h1, h2⟩, h3⟩, h4⟩ := h
  simp [extractLoop, h1, h2, h3, h4]

/-- Helper: the split on the double-bar delimiter never returns an empty part
    list. -/
theorem splitBarsL_ne_nil (cs : List Char) : splitBarsL cs ≠ [] := by
  induction cs using splitBarsL.induct <;> simp [splitBarsL] <;> split <;> simp_all

/-- Helper: prepending a character to the first part commutes with joining. -/
theorem joinBarsL_cons (c : Char) (g : List Char) (gs : List (List Char)) :
    joinBarsL ((c :: g) :: gs) = c :: joinBarsL (g :: gs) := by
  cases gs <;> simp [joinBarsL]

/-- Helper: joining with the double-bar delimiter undoes the split, so the text
    after the directive run is rebuilt verbatim. -/
theorem joinBarsL_splitBarsL (cs : List Char) : joinBarsL (splitBarsL cs) = cs := by
  induction cs using splitBarsL.induct with
  | case1 => rfl
  | case2 cs ih =>
    rw [splitBarsL]
    cases h : splitBarsL cs with
    | nil => exact absurd h (splitBarsL_ne_nil cs)
    | cons g gs => rw [h] at ih; simpa [joinBarsL] using ih
  | case3 c cs h1 h2 ih => exact absurd h2 (splitBarsL_ne_nil cs)
  | case4 c cs h1 g gs h2 ih =>
    rw [splitBarsL]
    · simp only [h2]
      rw [joinBarsL_cons]
      rw [h2] at ih
      rw [ih]
    · exact h1

/-- C4: the documented directive example parses to body, dependency list and
    wait gate as stated; a body containing the double-bar delimiter after the
    directive run is preserved verbatim (joining inverts the split); and for
    every prompt, the first part that is not a recognized directive token ends
    the directive run, with all remaining parts returned untouched for
    rejoining with the delimiter. -/
theorem C4_directive_parsing :
    (extract_directives "WAIT_FOR_AGENT:1,2||WAIT_FOR_STATUS:/tmp/x|ready||do the work"
      = ("do the work", some ("/tmp/x", "ready"), ["1", "2"]))
    ∧ (extract_directives "WAIT_FOR_AGENT:1||keep||this || too"
      = ("keep||this || too", none, ["1"]))
    ∧ (∀ cs : List Char, joinBarsL (splitBarsL cs) = cs)
    ∧ (∀ (w : Option (String × String)) (d : List String) (t : String)
        (rest : List String),
        isDirectiveToken t = false →
        extractLoop w d (t :: rest) = (t :: rest, w, d)) :=
  ⟨by decide, by decide, joinBarsL_splitBarsL, extractLoop_stop⟩

/-- Closed witness for C4: the directive run ends at a free-text token and the
    remaining parts are returned untouched. -/
theorem C4_directive_parsing_witness :
    isDirectiveToken "do the work" = false
    ∧ extractLoop none [] ["do the work", "x||y"]
      = (["do the work", "x||y"], none, []) :=
  ⟨by decide,
   C4_directive_parsing.2.2.2 none [] "do the work" ["x||y"] (by decide)⟩

/-- C9: a status-wait directive token whose payload contains no bar separator is
    not consumed as a directive: it ends the directive run, the malformed token
    and every later part become the returned prompt body, and that token sets no
    wait gate. -/
theorem C9_malformed_wait_status_token :
    (extract_directives "WAIT_FOR_STATUS:/tmp/x||do it"
      = ("WAIT_FOR_STATUS:/tmp/x||do it", none, []))
    ∧ (∀ (w : Option (String × String)) (d : List String) (part : String)
        (rest : List String),
        pyStartsWith (pyStrip part) "WAIT_FOR_STATUS:" = true →
        pyContainsChar
            (pyStrip (pyDropChars (pyStrip part) ("WAIT_FOR_STATUS:".length))) '|'
          = false →
        extractLoop w d (part :: rest) = (part :: rest, w, d)) := by
  refine ⟨by decide, ?_⟩
  intro w d part rest hstart hbar
  have hoth := wfsToken_not_other (pyStrip part).data hstart
  apply extractLoop_stop
  simp [isDirectiveToken, pyStartsWith, hbar, hoth.1, hoth.2.1, hoth.2.2]

/-- Closed witness for C9 at a concrete malformed status-wait token. -/
theorem C9_malformed_wait_status_token_witness :
    pyStartsWith (pyStrip "WAIT_FOR_STATUS:/tmp/x") "WAIT_FOR_STATUS:" = true
    ∧ pyContainsChar
        (pyStrip (pyDropChars (pyStrip "WAIT_FOR_STATUS:/tmp/x")
          ("WAIT_FOR_STATUS:".length))) '|' = false
    ∧ extractLoop none [] ["WAIT_FOR_STATUS:/tmp/x", "go"]
      = (["WAIT_FOR_STATUS:/tmp/x", "go"], none, []) :=
  ⟨by decide, by decide,
   C9_malformed_wait_status_token.2 none [] "WAIT_FOR_STATUS:/tmp/x" ["go"]
     (by decide) (by decide)⟩

/-- Helper: a single line break not followed by a second break becomes either a
    preserved break or a space according to the list-marker lookahead. -/
theorem normalizeChars_single_break (c : Char) (cs : List Char) (hc : c ≠ '\n') :
    normalizeChars ('\n' :: c :: cs)
      = (if listBreakAhead (c :: cs) then '\n' else ' ') :: normalizeChars (c :: cs) := by
  rw [normalizeChars]
  intro rest h1
  injection h1 with ha hb
  exact hc ha

/-- Helper: normalization never leaves a carriage return in its output. -/
theorem normalizeChars_no_cr (cs : List Char) :
    (normalizeChars cs).contains '\r' = false := by
  induction cs using normalizeChars.induct with
  | case1 => decide
  | case2 rest ih => simpa [normalizeChars] using ih
  | case3 rest ih =>
    simp_all [normalizeChars, List.contains_cons,
      show (('\r' == '\n') : Bool) = false from rfl]
  | case4 rest hguard ih =>
    cases rest with
    | nil => decide
    | cons c cs2 =>
      have hc : c ≠ '\n' := fun h => hguard cs2 (by rw [h])
      rw [normalizeChars_single_break c cs2 hc]
      cases hif : listBreakAhead (c :: cs2) <;>
        simp_all [List.contains_cons,
          show (('\r' == '\n') : Bool) = false from rfl,
          show (('\r' == ' ') : Bool) = false from rfl]
  | case5 c rest g1 g2 g3 ih =>
    simp_all [normalizeChars, List.contains_cons, eq_comm]

/-- C5: text normalization drops every carriage return, collapses a double line
    break into one break, collapses a single line break into a space unless the
    lookahead (past spaces and tabs) sees a list marker or a digit followed by a
    period, and behaves as documented on the five concrete examples. -/
theorem C5_text_normalization :
    (normalize_summary_text "a\nb" = "a b")
    ∧ (normalize_summary_text "a\n\nb" = "a\nb")
    ∧ (normalize_summary_text "a\n- item" = "a\n- item")
    ∧ (normalize_summary_text "a\n1. item" = "a\n1. item")
    ∧ (normalize_summary_text "\r" = "")
    ∧ (∀ s : String, (normalize_summary_text s).data.contains '\r' = false)
    ∧ (∀ cs : List Char, normalizeChars ('\r' :: cs) = normalizeChars cs)
    ∧ (∀ cs : List Char, normalizeChars ('\n' :: '\n' :: cs) = '\n' :: normalizeChars cs)
    ∧ (∀ (c : Char) (cs : List Char), c ≠ '\n' →
        normalizeChars ('\n' :: c :: cs)
          = (if listBreakAhead (c :: cs) then '\n' else ' ') :: normalizeChars (c :: cs)) :=
  ⟨by decide, by decide, by decide, by decide, by decide,
   fun s => normalizeChars_no_cr s.data,
   fun cs => rfl, fun cs => rfl, normalizeChars_single_break⟩

/-- Closed witness for C5 at a concrete single line break before a plain word. -/
theorem C5_text_normalization_witness :
    ('b' ≠ '\n')
    ∧ normalizeChars ['\n', 'b']
      = (if listBreakAhead ['b'] then '\n' else ' ') :: normalizeChars ['b'] :=
  ⟨by decide, C5_text_normalization.2.2.2.2.2.2.2.2 'b' [] (by decide)⟩

/-- Helper: trace of the failed polls before a successful gate read, one read
    and one polling sleep per failure. -/
def failPolls (pre : List (Option String)) : List GateAction :=
  pre.foldr (fun o acc => GateAction.gateRead o :: GateAction.sleepPoll :: acc) []

/-- Helper: when no observation ever satisfies the gate check, the wait never
    returns. -/
theorem waitTrace_never (expected : String) (obs : List (Option String))
    (h : ∀ x ∈ obs, gateCheck expected x = false) :
    waitTrace expected obs = none := by
  induction obs with
  | nil => rfl
  | cons o rest ih =>
    have ho := h o (by simp)
    simp [waitTrace, ho, ih (fun x hx => h x (List.mem_cons_of_mem _ hx))]

/-- Helper: the wait returns at the first satisfying observation, after reading
    and sleeping through every earlier failing observation. -/
theorem waitTrace_first_success (expected : String) (pre : List (Option String))
    (o : Option String) (post : List (Option String))
    (hpre : ∀ x ∈ pre, gateCheck expected x = false)
    (ho : gateCheck expected o = true) :
    waitTrace expected (pre ++ o :: post)
      = some (failPolls pre ++ [GateAction.gateRead o]) := by
  induction pre with
  | nil => simp [waitTrace, ho, failPolls]
  | cons p rest ih =>
    have hp := hpre p (by simp)
    simp [waitTrace, hp, failPolls,
      ih (fun x hx => hpre x (List.mem_cons_of_mem _ hx))]

/-- C8: a gated agent issues its session-creation request only after a read of
    the gate file whose stripped first line equals the expected status: when no
    read ever matches the start never happens; when the first matching read is
    preceded by failing reads, the trace is exactly those polls, the successful
    read, then thread/start and turn/start; and when the file already matches at
    the first read, the wait resolves at once, with no polling sleep in the
    trace. -/
theorem C8_readiness_gate :
    (∀ (w : String × String) (obs : List (Option String)),
      (∀ x ∈ obs, gateCheck w.2 x = false) →
      start_agent_trace (some w) obs = none)
    ∧ (∀ (w : String × String) (pre : List (Option String)) (o : Option String)
        (post : List (Option String)),
        (∀ x ∈ pre, gateCheck w.2 x = false) →
        gateCheck w.2 o = true →
        start_agent_trace (some w) (pre ++ o :: post)
          = some (failPolls pre ++
              [GateAction.gateRead o, GateAction.threadStart, GateAction.turnStart]))
    ∧ (∀ (w : String × String) (o : Option String) (rest : List (Option String)),
        gateCheck w.2 o = true →
        start_agent_trace (some w) (o :: rest)
          = some [GateAction.gateRead o, GateAction.threadStart,
                  GateAction.turnStart]) := by
  refine ⟨?_, ?_, ?_⟩
  · intro w obs h
    simp [start_agent_trace, waitTrace_never w.2 obs h]
  · intro w pre o post hpre ho
    simp [start_agent_trace, waitTrace_first_success w.2 pre o post hpre ho]
  · intro w o rest ho
    simp [start_agent_trace, waitTrace, ho]

/-- Closed witness for C8: a gate file already containing the expected status
    (with a trailing newline stripped by the read) resolves on the first read,
    with no polling sleep before the session-creation request. -/
theorem C8_readiness_gate_witness :
    gateCheck ("/tmp/x", "ready").2 (some "ready\n") = true
    ∧ start_agent_trace (some ("/tmp/x", "ready")) [some "ready\n", none]
      = some [GateAction.gateRead (some "ready\n"), GateAction.threadStart,
              GateAction.turnStart] :=
  ⟨by decide,
   C8_readiness_gate.2.2 ("/tmp/x", "ready") (some "ready\n") [none] (by decide)⟩

/-- Helper: once a review id has been recorded as written, handling another
    exited-review-mode item carrying that id changes nothing. -/
theorem processExitedReview_written_noop (s : ReviewState) (e : ExitReviewEvent)
    (h : e.id ∈ s.review_written) : processExitedReview s e = s := by
  rw [processExitedReview, if_neg]
  intro hc
  exact hc.2.2 h

/-- Helper: the count of saved lines for an id, tracked against membership of
    the written set, over a whole event sequence. -/
theorem reviewTrace_count (id : String) (hid : id ≠ "") :
    ∀ (evs : List ExitReviewEvent) (s : ReviewState),
      s.saved.count id = (if id ∈ s.review_written then 1 else 0) →
      ((evs.foldl processExitedReview s).saved.count id
        = (if (id ∈ s.review_written ∨ ∃ e ∈ evs, e.id = id ∧ e.output ≠ "")
           then 1 else 0)) := by
  intro evs
  induction evs with
  | nil => intro s hs; simpa using hs
  | cons e rest ih =>
    intro s hs
    rw [List.foldl_cons]
    by_cases hfire : e.output ≠ "" ∧ e.id ≠ "" ∧ e.id ∉ s.review_written
    · have hstep : processExitedReview s e =
        { review_labels := s.review_labels.filter (fun kv => !(kv.1 == e.id)),
          review_written := s.review_written ++ [e.id],
          saved := s.saved ++ [e.id] } := by
        rw [processExitedReview, if_pos hfire]
      rw [hstep]
      by_cases he : e.id = id
      · have hnotin : id ∉ s.review_written := he ▸ hfire.2.2
        have hinv : (s.saved ++ [e.id]).count id
            = (if id ∈ s.review_written ++ [e.id] then 1 else 0) := by
          simp [List.count_append, hs, hnotin, he]
        have := ih { review_labels := s.review_labels.filter (fun kv => !(kv.1 == e.id)),
                     review_written := s.review_written ++ [e.id],
                     saved := s.saved ++ [e.id] } hinv
        simp only [this]
        have hmem : id ∈ s.review_written ++ [e.id] := by simp [he]
        simp [hmem, he, hfire.1]
      · have hinv : (s.saved ++ [e.id]).count id
            = (if id ∈ s.review_written ++ [e.id] then 1 else 0) := by
          simp [List.count_append, hs, he, Ne.symm he]
        have := ih { review_labels := s.review_labels.filter (fun kv => !(kv.1 == e.id)),
                     review_written := s.review_written ++ [e.id],
                     saved := s.saved ++ [e.id] } hinv
        simp only [this]
        have hiff : (id ∈ s.review_written ++ [e.id] ∨ ∃ x ∈ rest, x.id = id ∧ x.output ≠ "")
            ↔ (id ∈ s.review_written ∨ ∃ x ∈ e :: rest, x.id = id ∧ x.output ≠ "") := by
          simp [he, Ne.symm he]
        rw [if_congr hiff rfl rfl]
    · have hstep : processExitedReview s e = s := by
        rw [processExitedReview, if_neg hfire]
      rw [hstep, ih s hs]
      have hcons : (∃ x ∈ e :: rest, x.id = id ∧ x.output ≠ "")
          ↔ ((e.id = id ∧ e.output ≠ "") ∨ ∃ x ∈ rest, x.id = id ∧ x.output ≠ "") := by
        simp
      have hiff : (id ∈ s.review_written ∨ ∃ x ∈ rest, x.id = id ∧ x.output ≠ "")
          ↔ (id ∈ s.review_written ∨ ∃ x ∈ e :: rest, x.id = id ∧ x.output ≠ "") := by
        rw [hcons]
        push_neg at hfire
        constructor
        · tauto
        · rintro (h | ⟨hm1, hm2⟩ | h)
          · exact Or.inl h
          · have hw : e.id ∈ s.review_written := hfire hm2 (by rw [hm1]; exact hid)
            exact Or.inl (hm1 ▸ hw)
          · exact Or.inr h
      rw [if_congr hiff rfl rfl]

/-- C7: handling exited-review-mode items is idempotent per review id: an id
    already written is a no-op, handling the same event twice equals handling it
    once, and over any event sequence from startup the saved-artifact line for a
    nonempty id is recorded exactly once when some event carries that id with
    nonempty output, and never otherwise. -/
theorem C7_review_artifact_idempotent :
    (∀ (s : ReviewState) (e : ExitReviewEvent),
        e.id ∈ s.review_written → processExitedReview s e = s)
    ∧ (∀ (s : ReviewState) (e : ExitReviewEvent),
        processExitedReview (processExitedReview s e) e = processExitedReview s e)
    ∧ (∀ (evs : List ExitReviewEvent) (id : String), id ≠ "" →
        (evs.foldl processExitedReview initReviewState).saved.count id
          = (if ∃ e ∈ evs, e.id = id ∧ e.output ≠ "" then 1 else 0)) := by
  refine ⟨processExitedReview_written_noop, ?_, ?_⟩
  · intro s e
    by_cases hfire : e.output ≠ "" ∧ e.id ≠ "" ∧ e.id ∉ s.review_written
    · have hstep : processExitedReview s e =
        { review_labels := s.review_labels.filter (fun kv => !(kv.1 == e.id)),
          review_written := s.review_written ++ [e.id],
          saved := s.saved ++ [e.id] } := by
        rw [processExitedReview, if_pos hfire]
      rw [hstep]
      apply processExitedReview_written_noop
      simp
    · have hstep : processExitedReview s e = s := by
        rw [processExitedReview, if_neg hfire]
      rw [hstep, hstep]
  · intro evs id hid
    have h := reviewTrace_count id hid evs initReviewState (by simp [initReviewState])
    simpa [initReviewState] using h

/-- Closed witness for C7: two exit events with the same id and output produce
    exactly one saved artifact line. -/
theorem C7_review_artifact_idempotent_witness :
    ("r1" : String) ≠ ""
    ∧ (([⟨"r1", "out"⟩, ⟨"r1", "out"⟩] : List ExitReviewEvent).foldl
          processExitedReview initReviewState).saved.count "r1"
      = (if ∃ e ∈ ([⟨"r1", "out"⟩, ⟨"r1", "out"⟩] : List ExitReviewEvent),
            e.id = "r1" ∧ e.output ≠ "" then 1 else 0) :=
  ⟨by decide,
   C7_review_artifact_idempotent.2.2 [⟨"r1", "out"⟩, ⟨"r1", "out"⟩] "r1" (by decide)⟩

/-- Helper: one follow-up event preserves the queue accounting invariant: the
    prompts ever enqueued are exactly the prompts ever dequeued followed by the
    still-queued ones, and every dequeued prompt was dispatched. -/
theorem followUpStep_inv (s : FollowUpAgent) (e : FollowUpEvent)
    (h1 : s.enq = s.deq ++ s.queued) (h2 : s.deq.Sublist s.sent) :
    ((followUpStep s e).enq = (followUpStep s e).deq ++ (followUpStep s e).queued)
    ∧ ((followUpStep s e).deq.Sublist (followUpStep s e).sent) := by
  cases e with
  | userPrompt p =>
    by_cases hd : s.done
    · refine ⟨by simp [followUpStep, hd, h1], ?_⟩
      simp only [followUpStep, hd, if_pos]
      exact h2.trans (List.sublist_append_left _ _)
    · refine ⟨?_, by simp [followUpStep, hd, h2]⟩
      simp [followUpStep, hd, h1]
  | turnCompleted =>
    cases hq : s.queued with
    | nil =>
      rw [hq] at h1
      simp [followUpStep, hq, h1, h2]
    | cons p rest =>
      rw [hq] at h1
      refine ⟨by simp [followUpStep, hq, h1], ?_⟩
      simp only [followUpStep, hq]
      simpa using h2

/-- Helper: the queue accounting invariant holds after any event sequence from
    any state satisfying it. -/
theorem followUp_inv_trace :
    ∀ (evs : List FollowUpEvent) (s : FollowUpAgent),
      s.enq = s.deq ++ s.queued → s.deq.Sublist s.sent →
      ((evs.foldl followUpStep s).enq
          = (evs.foldl followUpStep s).deq ++ (evs.foldl followUpStep s).queued)
      ∧ ((evs.foldl followUpStep s).deq.Sublist (evs.foldl followUpStep s).sent) := by
  intro evs
  induction evs with
  | nil => intro s h1 h2; exact ⟨h1, h2⟩
  | cons e rest ih =>
    intro s h1 h2
    rw [List.foldl_cons]
    have hstep := followUpStep_inv s e h1 h2
    exact ih _ hstep.1 hstep.2

/-- C6: a follow-up prompt arriving while the agent is running is queued, not
    dispatched; dispatch from the queue happens only at a turn completion,
    which pops and dispatches exactly the queue head (one prompt per
    completion, re-arming the agent); and over any event sequence from the
    initial running state, the enqueued prompts are exactly the dequeued ones
    (in FIFO order, each dispatched, exactly once) followed by those still
    queued. -/
theorem C6_followup_queue_dispatch :
    (∀ (s : FollowUpAgent) (p : String), s.done = false →
        (followUpStep s (.userPrompt p)).sent = s.sent
        ∧ (followUpStep s (.userPrompt p)).queued = s.queued ++ [p])
    ∧ (∀ (s : FollowUpAgent) (p : String),
        (followUpStep s (.userPrompt p)).deq = s.deq)
    ∧ (∀ s : FollowUpAgent,
        (followUpStep s .turnCompleted).deq = s.deq ++ s.queued.take 1
        ∧ (followUpStep s .turnCompleted).sent = s.sent ++ s.queued.take 1
        ∧ (followUpStep s .turnCompleted).queued = s.queued.drop 1
        ∧ (followUpStep s .turnCompleted).done = s.queued.isEmpty)
    ∧ (∀ evs : List FollowUpEvent,
        (evs.foldl followUpStep initFollowUpAgent).enq
          = (evs.foldl followUpStep initFollowUpAgent).deq
              ++ (evs.foldl followUpStep initFollowUpAgent).queued
        ∧ ((evs.foldl followUpStep initFollowUpAgent).deq.Sublist
            (evs.foldl followUpStep initFollowUpAgent).sent)) := by
  refine ⟨?_, ?_, ?_, ?_⟩
  · intro s p h; simp [followUpStep, h]
  · intro s p; by_cases h : s.done <;> simp [followUpStep, h]
  · intro s; cases hq : s.queued <;> simp [followUpStep, hq]
  · intro evs
    exact followUp_inv_trace evs initFollowUpAgent (by rfl) (by simp [initFollowUpAgent])

/-- Closed witness for C6: a prompt queued mid-turn is not sent, and is
    dispatched by the next turn completion. -/
theorem C6_followup_queue_dispatch_witness :
    ((initFollowUpAgent.done = false) ∧
      (followUpStep initFollowUpAgent (.userPrompt "next")).sent = initFollowUpAgent.sent
      ∧ (followUpStep initFollowUpAgent (.userPrompt "next")).queued
          = initFollowUpAgent.queued ++ ["next"]) :=
  ⟨rfl, C6_followup_queue_dispatch.1 initFollowUpAgent "next" rfl⟩

/-- Helper: starting a spec appends one running agent. -/
theorem countNondone_start (agents : List AgentRec) (item : AgentSpec) :
    countNondone (start_agent_rec agents item) = countNondone agents + 1 := by
  simp [countNondone, start_agent_rec, List.countP_append]

/-- Helper: the scheduling pass keeps the count of non-done agents at or below
    the cap, from any intermediate loop configuration. -/
theorem sraLoop_cap_bound (maxPar : Nat) :
    ∀ (pending : List AgentSpec) (agents : List AgentRec)
      (remaining : List AgentSpec) (started : Bool),
      countNondone agents ≤ maxPar →
      countNondone (sraLoop maxPar pending agents remaining started).2.1 ≤ maxPar := by
  intro pending
  induction pending with
  | nil => intro agents r st h; exact h
  | cons item rest ih =>
    intro agents r st h
    rw [sraLoop]
    split
    · split
      · exact ih _ _ _ (by rw [countNondone_start]; omega)
      · exact ih _ _ _ h
    · exact h

/-- Helper: marking an agent done never increases the count of non-done
    agents. -/
theorem countNondone_complete (agents : List AgentRec) (idx : Nat) :
    countNondone
        (agents.map (fun a => if a.index == idx then { a with done := true } else a))
      ≤ countNondone agents := by
  rw [countNondone, countNondone, List.countP_map]
  apply List.countP_mono_left
  intro a _ h
  by_cases hi : (a.index == idx) = true <;> simp_all [Function.comp]

/-- C3: the count of agents whose lifecycle flag is not done never exceeds the
    parallelism cap: every intermediate and final configuration of a scheduling
    pass respects it (the loop re-checks the count before every start), a pass
    entered with the cap already reached starts nothing and preserves every
    pending spec, and the bound is preserved by any sequence of scheduler ticks
    and turn completions (with or without follow-up redispatch). -/
theorem C3_parallel_cap_invariant :
    (∀ (maxPar : Nat) (pending : List AgentSpec) (agents : List AgentRec)
        (remaining : List AgentSpec) (started : Bool),
        countNondone agents ≤ maxPar →
        countNondone (sraLoop maxPar pending agents remaining started).2.1 ≤ maxPar)
    ∧ (∀ (maxPar : Nat) (pending : List AgentSpec) (agents : List AgentRec),
        maxPar ≤ countNondone agents →
        start_ready_agents maxPar pending agents = (pending, agents, false))
    ∧ (∀ (maxPar : Nat) (steps : List SchedStep) (s0 : SchedState),
        countNondone s0.agents ≤ maxPar →
        countNondone ((steps.foldl (applySchedStep maxPar) s0).agents) ≤ maxPar) := by
  refine ⟨sraLoop_cap_bound, ?_, ?_⟩
  · intro maxPar pending agents h
    cases pending with
    | nil => rfl
    | cons item rest =>
      rw [start_ready_agents, sraLoop, if_neg (by omega)]
      simp
  · intro maxPar steps
    induction steps with
    | nil => intro s0 h; exact h
    | cons e rest ih =>
      intro s0 h
      rw [List.foldl_cons]
      apply ih
      cases e with
      | tick => exact sraLoop_cap_bound maxPar s0.pending s0.agents [] false h
      | complete idx => exact le_trans (countNondone_complete s0.agents idx) h
      | completeRedispatch idx => exact h

/-- Closed witness for C3: one tick from an empty registry with a cap of one and
    two pending specs leaves at most one non-done agent. -/
theorem C3_parallel_cap_invariant_witness :
    countNondone (SchedState.mk [⟨1, "p1", none, []⟩, ⟨2, "p2", none, []⟩] []).agents ≤ 1
    ∧ countNondone ((([SchedStep.tick]).foldl (applySchedStep 1)
        (SchedState.mk [⟨1, "p1", none, []⟩, ⟨2, "p2", none, []⟩] [])).agents) ≤ 1 :=
  ⟨by decide,
   C3_parallel_cap_invariant.2.2 1 [SchedStep.tick]
     (SchedState.mk [⟨1, "p1", none, []⟩, ⟨2, "p2", none, []⟩] []) (by decide)⟩

/-- Helper: the count of non-done agents never exceeds the number of agent
    records. -/
theorem countNondone_le_length (agents : List AgentRec) :
    countNondone agents ≤ agents.length :=
  List.countP_le_length _

/-- Helper: when the cap is at least the number of agent records plus the specs
    still to examine, the scheduling pass never takes its cap exit and agrees
    with the uncapped pass. -/
theorem sraLoop_eq_uncapped (maxPar : Nat) :
    ∀ (pending : List AgentSpec) (agents : List AgentRec)
      (remaining : List AgentSpec) (started : Bool),
      agents.length + remaining.length + pending.length ≤ maxPar →
      sraLoop maxPar pending agents remaining started
        = sraLoopUncapped pending agents remaining started := by
  intro pending
  induction pending with
  | nil => intro agents r st h; rfl
  | cons item rest ih =>
    intro agents r st h
    have hcap : countNondone agents < maxPar := by
      have := countNondone_le_length agents
      simp only [List.length_cons] at h
      omega
    rw [sraLoop, sraLoopUncapped, if_pos hcap]
    split
    · apply ih
      simp only [start_agent_rec, List.length_append, List.length_cons,
        List.length_nil] at h ⊢
      omega
    · apply ih
      simp only [List.length_append, List.length_cons, List.length_nil] at h ⊢
      omega

/-- Helper: a scheduling pass conserves the total of agent records plus specs
    left over. -/
theorem sraLoop_length_conserved (maxPar : Nat) :
    ∀ (pending : List AgentSpec) (agents : List AgentRec)
      (remaining : List AgentSpec) (started : Bool),
      (sraLoop maxPar pending agents remaining started).2.1.length
        + (sraLoop maxPar pending agents remaining started).1.length
        = agents.length + pending.length + remaining.length := by
  intro pending
  induction pending with
  | nil => intro agents r st; simp [sraLoop]
  | cons item rest ih =>
    intro agents r st
    rw [sraLoop]
    split
    · split
      · rw [ih]
        simp [start_agent_rec]
        omega
      · rw [ih]
        simp
        omega
    · simp
      omega

/-- Helper: over any run starting with all specs pending and no agents, the
    total of agent records plus pending specs never exceeds the spec count. -/
theorem sched_total_bound (maxPar : Nat) :
    ∀ (steps : List SchedStep) (s0 : SchedState) (bound : Nat),
      s0.agents.length + s0.pending.length ≤ bound →
      (steps.foldl (applySchedStep maxPar) s0).agents.length
        + (steps.foldl (applySchedStep maxPar) s0).pending.length ≤ bound := by
  intro steps
  induction steps with
  | nil => intro s0 bound h; exact h
  | cons e rest ih =>
    intro s0 bound h
    rw [List.foldl_cons]
    apply ih
    cases e with
    | tick =>
      have hc := sraLoop_length_conserved maxPar s0.pending s0.agents [] false
      simp only [applySchedStep, start_ready_agents]
      simp only [List.length_nil, Nat.add_zero] at hc
      omega
    | complete idx => simpa [applySchedStep] using h
    | completeRedispatch idx => exact h

/-- C10: an absent or zero max-parallel option makes the effective cap the
    number of agent specs, and with that cap the scheduler never blocks a spec
    on the cap: any scheduling pass whose cap covers every agent record and
    every spec it can examine coincides with the uncapped pass, and this keeps
    holding at every state reachable by ticks and completions from the initial
    state with all specs pending. -/
theorem C10_max_parallel_default :
    (∀ n : Nat, effective_max_parallel none n = n)
    ∧ (∀ n : Nat, effective_max_parallel (some 0) n = n)
    ∧ (∀ (maxPar : Nat) (pending : List AgentSpec) (agents : List AgentRec)
        (remaining : List AgentSpec) (started : Bool),
        agents.length + remaining.length + pending.length ≤ maxPar →
        sraLoop maxPar pending agents remaining started
          = sraLoopUncapped pending agents remaining started)
    ∧ (∀ (specs : List AgentSpec) (steps : List SchedStep),
        start_ready_agents specs.length
            (steps.foldl (applySchedStep specs.length) ⟨specs, []⟩).pending
            (steps.foldl (applySchedStep specs.length) ⟨specs, []⟩).agents
          = sraLoopUncapped
              (steps.foldl (applySchedStep specs.length) ⟨specs, []⟩).pending
              (steps.foldl (applySchedStep specs.length) ⟨specs, []⟩).agents
              [] false) := by
  refine ⟨fun n => rfl, fun n => rfl, sraLoop_eq_uncapped, ?_⟩
  intro specs steps
  have hb := sched_total_bound specs.length steps ⟨specs, []⟩ specs.length (by simp)
  apply sraLoop_eq_uncapped
  simpa using hb

/-- Closed witness for C10 at a concrete one-spec pass below the cap. -/
theorem C10_max_parallel_default_witness :
    (([] : List AgentRec).length + ([] : List AgentSpec).length
        + [(⟨1, "p1", none, []⟩ : AgentSpec)].length ≤ 2)
    ∧ sraLoop 2 [⟨1, "p1", none, []⟩] [] [] false
        = sraLoopUncapped [⟨1, "p1", none, []⟩] [] [] false :=
  ⟨by decide,
   C10_max_parallel_default.2.2.1 2 [⟨1, "p1", none, []⟩] [] [] false (by decide)⟩

/-- Concrete pending approval used to exercise the invalid-decision paths: a
    current-family command approval carrying no proposed amendment, so the
    amendment choice letter is invalid for it. -/
def sampleEntry : ApprovalEntry :=
  { req_id := 7, method := "item/commandExecution/requestApproval",
    thread_id := "t1", amendment := Json.null }

/-- Approval state with exactly that one request pending, in both the global
    queue and the queue of its thread. -/
def sampleApprovalState : ApprovalState :=
  { approval_queue := [sampleEntry],
    byThread := [("t1", [sampleEntry])],
    responses := [], outputs := [], logs := [] }

/-- C2 (evaluation at the failing input): on an invalid decision (the amendment
    letter with no amendment carried), both operator-command paths report the
    invalid choice, yet the approval request has already been removed from the
    global queue and from the per-session queue and no response is sent, so it
    does not remain pending and can never be resolved. -/
theorem C2_invalid_decision_loses_approval :
    (agentChoiceCmd sampleApprovalState "t1" 1 "p").outputs
      = ["Invalid approval choice."]
    ∧ (agentChoiceCmd sampleApprovalState "t1" 1 "p").approval_queue = []
    ∧ lookupThread (agentChoiceCmd sampleApprovalState "t1" 1 "p").byThread "t1" = []
    ∧ (agentChoiceCmd sampleApprovalState "t1" 1 "p").responses = []
    ∧ (approveCmdNoTarget sampleApprovalState "p").outputs
      = ["Invalid approval choice."]
    ∧ (approveCmdNoTarget sampleApprovalState "p").approval_queue = []
    ∧ lookupThread (approveCmdNoTarget sampleApprovalState "p").byThread "t1" = []
    ∧ (approveCmdNoTarget sampleApprovalState "p").responses = [] :=
  ⟨rfl, rfl, rfl, rfl, rfl, rfl, rfl, rfl⟩
